import Mathlib

/-!
Verification development for the Drona Composer front-end logic
(`MultiPaneTextArea` / `DynamicRadioGroup` / `JobComposer`).

The JavaScript sources are shallowly embedded:
* JS runtime values are modelled by `JSVal` (strings, numbers as `Int`,
  booleans, `null`, `undefined`, arrays, plain objects, `File` handles);
* JS plain objects are modelled as association lists in insertion order,
  property assignment (`obj[k] = v`) by `objSet` (update-in-place keeps the
  key's position, a new key is appended — ECMAScript property order);
* `FormData` is a list of (key, entry) pairs in append order, `get`
  returning the first entry for a key;
* the React render/effect/timer behaviour of `DynamicRadioGroup` is
  embedded as a deterministic event-driven machine (`drgRun`), documented
  at its definitions.
-/

/-- JS runtime values. Numbers are modelled as `Int` (all numbers appearing
in the embedded code paths are integers); `vfile` stands for a DOM `File`
object, identified by its name. -/
inductive JSVal where
  | vstr (s : String)
  | vnum (n : Int)
  | vbool (b : Bool)
  | vnull
  | vundef
  | varr (elems : List JSVal)
  | vobj (fields : List (String × JSVal))
  | vfile (fname : String)

mutual
/-- Structural equality test on JS values.  It models JS `===`/`!==`:
exact for primitives; for objects/arrays JS compares references, and the
only object comparisons performed by the embedded code are between a
stored value and itself or a newly assigned value, for which structural
equality coincides with reference equality in every scenario we run. -/
def jsStrictEq : JSVal → JSVal → Bool
  | .vstr a, .vstr b => a = b
  | .vnum a, .vnum b => a = b
  | .vbool a, .vbool b => a = b
  | .vnull, .vnull => true
  | .vundef, .vundef => true
  | .varr a, .varr b => jsStrictEqList a b
  | .vobj a, .vobj b => jsStrictEqFields a b
  | .vfile a, .vfile b => a = b
  | _, _ => false

def jsStrictEqList : List JSVal → List JSVal → Bool
  | [], [] => true
  | a :: as, b :: bs => jsStrictEq a b && jsStrictEqList as bs
  | _, _ => false

def jsStrictEqFields : List (String × JSVal) → List (String × JSVal) → Bool
  | [], [] => true
  | (k, a) :: as, (k', b) :: bs => k = k' && jsStrictEq a b && jsStrictEqFields as bs
  | _, _ => false
end

/-- A form-values store: field name → current value (spec §3 FormValues). -/
abbrev FormValues := List (String × JSVal)

/-- Modelled from the spec: `getFieldValue` is imported from
`../utils/fieldUtils`, whose source is not in the repository snapshot.
Spec §3/§4.1: "FormValues: mapping from field name (string) to current
value", read by every field needing cross-field data; a `$fieldName`
reference is "resolved against FormValues at fetch time".  We model the
lookup of a field's current value, with JS `undefined` for a missing
field. -/
def getFieldValue (values : FormValues) (name : String) : JSVal :=
  match List.lookup name values with
  | some v => v
  | none => JSVal.vundef

/-- JS `rawVal.startsWith('$')` for the one-character pattern `'$'`:
true iff the first UTF-16 unit is `$` (ASCII, so first character). -/
def jsStartsWithDollar (s : String) : Bool :=
  s.data.head? = some '$'

/-- JS `rawVal.substring(1)`: drop the first UTF-16 unit (here always the
one-unit character `$`). -/
def jsDropFirst (s : String) : String :=
  String.mk (s.data.drop 1)

/-- JS truthiness: `""`, `0`, `false`, `null`, `undefined` are falsy. -/
def jsTruthy : JSVal → Bool
  | .vstr s => !(s = "")
  | .vnum n => !(n = 0)
  | .vbool b => b
  | .vnull => false
  | .vundef => false
  | .varr _ => true
  | .vobj _ => true
  | .vfile _ => true

/-- JS property assignment `obj[k] = v` on a plain object, modelled on the
insertion-ordered association list: an existing key keeps its position and
gets the new value, a fresh key is appended at the end. -/
def objSet : List (String × JSVal) → String → JSVal → List (String × JSVal)
  | [], k, v => [(k, v)]
  | (k', v') :: rest, k, v =>
      if k' = k then (k, v) :: rest else (k', v') :: objSet rest k v

/-- JSON string escaping (`JSON.stringify` on a string): `"` and `\` are
backslash-escaped, control characters use the short escapes or `\u00XX`. -/
def jsonEscapeChar (c : Char) : String :=
  if c = '"' then "\\\""
  else if c = '\\' then "\\\\"
  else if c = (Char.ofNat 8) then "\\b"
  else if c = (Char.ofNat 9) then "\\t"
  else if c = (Char.ofNat 10) then "\\n"
  else if c = (Char.ofNat 12) then "\\f"
  else if c = (Char.ofNat 13) then "\\r"
  else if c.toNat < 32 then
    "\\u00" ++ String.mk [Nat.digitChar (c.toNat / 16), Nat.digitChar (c.toNat % 16)]
  else String.singleton c

/-- Model of `JSON.stringify` of a JS string value. -/
def jsonQuote (s : String) : String :=
  "\"" ++ String.join (s.data.map jsonEscapeChar) ++ "\""

mutual
/-- Model of `JSON.stringify`.  `none` models the JS result `undefined`
(for `undefined` arguments); inside arrays `undefined` serialises as
`null`, inside objects such properties are dropped; a `File` has no
enumerable own properties, so it serialises as `{}`. -/
def jsonStringify : JSVal → Option String
  | .vstr s => some (jsonQuote s)
  | .vnum n => some (toString n)
  | .vbool b => some (cond b "true" "false")
  | .vnull => some "null"
  | .vundef => none
  | .varr l => some ("[" ++ String.intercalate "," (jsonStringifyElems l) ++ "]")
  | .vobj fs => some ("\x7b" ++ String.intercalate "," (jsonStringifyFields fs) ++ "\x7d")
  | .vfile _ => some "\x7b\x7d"

/-- Array elements: `undefined` becomes `null`. -/
def jsonStringifyElems : List JSVal → List String
  | [] => []
  | v :: vs =>
      (match jsonStringify v with
       | some s => s
       | none => "null") :: jsonStringifyElems vs

/-- Object properties: properties whose serialisation is `undefined` are
skipped. -/
def jsonStringifyFields : List (String × JSVal) → List String
  | [] => []
  | (k, v) :: fs =>
      match jsonStringify v with
      | some s => (jsonQuote k ++ ":" ++ s) :: jsonStringifyFields fs
      | none => jsonStringifyFields fs
end

mutual
/-- JS `String(v)` coercion, as used by `formData.append(key, String(value))`
and `params.append(key, String(resolved))`.  Array coercion joins the
elements' coercions with commas, `null`/`undefined` elements as empty. -/
def jsToString : JSVal → String
  | .vstr s => s
  | .vnum n => toString n
  | .vbool b => cond b "true" "false"
  | .vnull => "null"
  | .vundef => "undefined"
  | .varr l => String.intercalate "," (jsToStringElems l)
  | .vobj _ => "[object Object]"
  | .vfile _ => "[object File]"

def jsToStringElems : List JSVal → List String
  | [] => []
  | .vnull :: vs => "" :: jsToStringElems vs
  | .vundef :: vs => "" :: jsToStringElems vs
  | v :: vs => jsToString v :: jsToStringElems vs
end

section PaneSorting

/-- One pane of `MultiPaneTextArea` (`MultiPaneTextArea.js`): a named text
buffer with a display name, an ordering key and its content.  `content` is
`Option String` because the source guards every read with
`pane.content || ''`.  The `onChange` callback is irrelevant to the
verified properties and omitted. -/
structure Pane where
  name : String
  preview_name : String
  order : Int
  content : Option String
deriving DecidableEq, Repr

/-- The `.map((pane, index) => ...)` step of `getSortedPanes`
(MultiPaneTextArea.js lines 31–38): a pane with `order === 0` gets the
synthetic order `10000 + index` (original array index); all other panes
are unchanged.  Written with an explicit running index so that it can be
reasoned about by structural induction; `normalizeZeroOrders = normalizeFrom 0`
is exactly the source's enumeration. -/
def normalizeFrom (i : Nat) : List Pane → List Pane
  | [] => []
  | p :: ps =>
      (if p.order = 0 then { p with order := 10000 + (i : Int) } else p)
        :: normalizeFrom (i + 1) ps

def normalizeZeroOrders (ps : List Pane) : List Pane :=
  normalizeFrom 0 ps

/-- Stable insertion of a pane into a list, by `order` ascending.  Used to
model `.sort((a, b) => a.order - b.order)`: ECMAScript `Array.prototype.sort`
is stable, and any stable sort by a total key agrees with stable insertion
sort. -/
def insertPane (p : Pane) : List Pane → List Pane
  | [] => [p]
  | q :: qs => if p.order ≤ q.order then p :: q :: qs else q :: insertPane p qs

/-- Stable sort by `order` ascending (model of the source's
`[...panes].sort((a, b) => a.order - b.order)`). -/
def sortPanesByOrder : List Pane → List Pane
  | [] => []
  | p :: ps => insertPane p (sortPanesByOrder ps)

/-- Model of `getSortedPanes` (MultiPaneTextArea.js lines 28–41): `none` models a
missing / non-array `panes` prop; otherwise normalise zero orders, sort by
`order` ascending (stable), and drop the panes with `order === -1`. -/
def getSortedPanes (panes : Option (List Pane)) : List Pane :=
  match panes with
  | none => []
  | some ps =>
      ((sortPanesByOrder (normalizeZeroOrders ps)).filter fun p => p.order ≠ -1)

/-- The object exposed for one pane by `getPaneRefs`
(MultiPaneTextArea.js lines 60–75): `getAttribute("name")`/`"id"` both
return the pane name, `value` is `pane.content || ''`. -/
structure PaneRef where
  name : String
  value : String
deriving DecidableEq, Repr

def paneToRef (p : Pane) : PaneRef :=
  { name := p.name, value := p.content.getD "" }

/-- Model of `getPaneRefs` (MultiPaneTextArea.js lines 60–75): the submission
snapshot maps exactly the sorted-and-filtered panes. -/
def getPaneRefs (panes : Option (List Pane)) : List PaneRef :=
  (getSortedPanes panes).map paneToRef

end PaneSorting

section QueryBuilding

/-- Resolution of one `retrieverParams` value (MultiPaneTextArea.js lines
349–351): a string starting with `$` is replaced by the named field's
current value in the given FormValues; anything else is passed through. -/
def resolveParam (fv : FormValues) (raw : JSVal) : JSVal :=
  match raw with
  | .vstr s => if jsStartsWithDollar s then getFieldValue fv (jsDropFirst s) else raw
  | v => v

/-- Serialisation of a resolved parameter value (lines 353–359):
`null`/`undefined` are skipped (`none`); string, number and boolean are
serialised unquoted via `String(resolved)`; everything else is
JSON-encoded.  (`jsonStringify` returns `some` for every value other than
`undefined`, which is already excluded here.) -/
def serializeParamValue (v : JSVal) : Option String :=
  match v with
  | .vundef => none
  | .vnull => none
  | .vstr s => some s
  | .vnum n => some (toString n)
  | .vbool b => some (cond b "true" "false")
  | v => jsonStringify v

/-- The `URLSearchParams` accumulated by the `Object.entries(...).forEach`
loop (lines 347–361), as ordered (key, value) pairs: each entry appends at
most one pair, in entry order. -/
def buildQueryParams (retrieverParams : List (String × JSVal)) (fv : FormValues) :
    List (String × String) :=
  match retrieverParams with
  | [] => []
  | (k, raw) :: rest =>
      (match serializeParamValue (resolveParam fv raw) with
       | some s => [(k, s)]
       | none => []) ++ buildQueryParams rest fv

/-- UTF-8 bytes of one character (code point), for URL encoding. -/
def utf8Bytes (c : Char) : List Nat :=
  let n := c.toNat
  if n < 0x80 then [n]
  else if n < 0x800 then [0xC0 + n / 0x40, 0x80 + n % 0x40]
  else if n < 0x10000 then
    [0xE0 + n / 0x1000, 0x80 + (n / 0x40) % 0x40, 0x80 + n % 0x40]
  else
    [0xF0 + n / 0x40000, 0x80 + (n / 0x1000) % 0x40, 0x80 + (n / 0x40) % 0x40,
     0x80 + n % 0x40]

def percentHex (n : Nat) : String :=
  let hexDigit (k : Nat) : Char :=
    if k < 10 then Char.ofNat (48 + k) else Char.ofNat (55 + k)
  String.mk ['%', hexDigit (n / 16), hexDigit (n % 16)]

/-- One byte under the `application/x-www-form-urlencoded` serialiser used
by `URLSearchParams.toString()`: `*`, `-`, `.`, `_` and alphanumerics kept,
space becomes `+`, everything else percent-encoded. -/
def formUrlEncodeByte (n : Nat) : String :=
  if n = 0x2A ∨ n = 0x2D ∨ n = 0x2E ∨ n = 0x5F
      ∨ (0x30 ≤ n ∧ n ≤ 0x39) ∨ (0x41 ≤ n ∧ n ≤ 0x5A) ∨ (0x61 ≤ n ∧ n ≤ 0x7A) then
    String.singleton (Char.ofNat n)
  else if n = 0x20 then "+"
  else percentHex n

def formUrlEncode (s : String) : String :=
  String.join ((s.data.flatMap utf8Bytes).map formUrlEncodeByte)

/-- Model of `params.toString()` (line 363): `k=v` pairs joined by `&`, both sides
form-url-encoded. -/
def queryToString (pairs : List (String × String)) : String :=
  String.intercalate "&" (pairs.map fun kv => formUrlEncode kv.1 ++ "=" ++ formUrlEncode kv.2)

end QueryBuilding

section DRGFieldState

/-- One selectable option (spec §3): `{value, label, isDeprecated}`. -/
structure Opt where
  value : String
  label : String
  isDeprecated : Bool
deriving DecidableEq, Repr

/-- The React state of one `DynamicRadioGroup`
(MultiPaneTextArea.js lines 278–282). -/
structure DRGFieldState where
  options : List Opt
  value : String
  isLoading : Bool
  isEvaluated : Bool
  isValueInvalid : Bool

/-- The success tail of `fetchOptions` (lines 380–390): store the returned
option set, mark evaluated, flag the held value as invalid iff it is
non-empty and no returned option carries it (`!!value && !data.some(...)`),
and clear the loading flag (the `finally` block).  The selection `value`
itself is not written. -/
def applyFetchSuccess (s : DRGFieldState) (data : List Opt) : DRGFieldState :=
  { s with
    options := data
    isEvaluated := true
    isValueInvalid := !(s.value = "") && !(data.any fun o => o.value = s.value)
    isLoading := false }

/-- What reaches the parent's error sink (`props.setError`). -/
inductive Surfaced where
  | structured (message : JSVal) (status_code : Nat) (details : JSVal)
  | raw (e : JSVal)

/-- Outcome of the awaited network interaction inside `fetchOptions`:
a non-2xx response carrying status and (maybe unparsable) JSON body, a
thrown network error, a thrown JSON-parse error on a 2xx response, or a
parsed JSON array of options. -/
inductive FetchOutcome where
  | httpError (status : Nat) (body : Option JSVal)
  | networkError (e : JSVal)
  | parseError (e : JSVal)
  | success (data : List Opt)

def FetchOutcome.isFailure : FetchOutcome → Bool
  | .success _ => false
  | _ => true

/-- The `TypeError` thrown by the unguarded property read
`errorData.message` when `errorData` is `null` (a non-2xx response whose
body is the JSON literal `null`) or `undefined`; its message text is
engine-specific, so it is modelled opaquely by its `name` property. -/
def nullBodyTypeError : JSVal :=
  JSVal.vobj [("name", JSVal.vstr "TypeError")]

/-- What the non-OK branch (lines 369–377) passes to the error sink.
`errorData` starts as `{}` and only the parse is guarded
(`try { errorData = await response.json(); } catch { }`), so:
when the parsed body is `null` (or `undefined`), the unguarded read
`errorData.message` throws a `TypeError`, which the *outer* catch passes
raw to the sink; otherwise the structured object is built with
`message = errorData.message || "Failed to retrieve radio options"` and
`details = errorData.details || errorData` — property reads on non-object,
non-null values (strings, numbers, booleans, arrays) yield `undefined`
without throwing, so those bodies still produce the structured object. -/
def httpErrorSurfaced (status : Nat) (body : Option JSVal) : Surfaced :=
  match body.getD (JSVal.vobj []) with
  | .vnull => .raw nullBodyTypeError
  | .vundef => .raw nullBodyTypeError
  | errorData =>
      let msgField :=
        match errorData with
        | .vobj fs => getFieldValue fs "message"
        | _ => JSVal.vundef
      let detailsField :=
        match errorData with
        | .vobj fs => getFieldValue fs "details"
        | _ => JSVal.vundef
      .structured
        (if jsTruthy msgField then msgField
         else JSVal.vstr "Failed to retrieve radio options")
        status
        (if jsTruthy detailsField then detailsField else errorData)

/-- The body of `fetchOptions` after a request was issued (lines 368–390),
as a transition on the field state together with the list of errors pushed
to the parent sink: a non-OK response surfaces `httpErrorSurfaced` (the
structured object, or — for a body parsing to `null` — the raw `TypeError`
the unguarded `errorData.message` read throws into the outer catch); a
thrown network failure or a `response.json()` parse failure reaches the
`catch` block, which passes the raw error; success applies
`applyFetchSuccess`.  In every case the `finally` block clears
`isLoading`. -/
def applyFetchOutcome (s : DRGFieldState) (o : FetchOutcome) :
    DRGFieldState × List Surfaced :=
  match o with
  | .httpError status body => ({ s with isLoading := false }, [httpErrorSurfaced status body])
  | .networkError e => ({ s with isLoading := false }, [.raw e])
  | .parseError e => ({ s with isLoading := false }, [.raw e])
  | .success data => (applyFetchSuccess s data, [])

/-- Model of `props.retrieverPath || props.retriever` (line 325) with JS falsiness:
`undefined`/`null`/`""` fall through. -/
def effectiveRetrieverPath (retrieverPath retriever : Option String) : Option String :=
  match retrieverPath with
  | some s => if s = "" then (match retriever with
      | some t => if t = "" then none else some t
      | none => none) else some s
  | none =>
      match retriever with
      | some t => if t = "" then none else some t
      | none => none

/-- The synchronous head of `fetchOptions` (lines 324–342): with no
retriever path configured it surfaces `{message: "Retriever path is not
set", status_code: 400, details: ""}` and returns before `setIsLoading(true)`
and before any request is built; otherwise it sets the loading flag and
proceeds to issue the request.  The returned `Bool` records whether a
network request is issued. -/
def fetchOptionsStart (retrieverPath retriever : Option String) (s : DRGFieldState) :
    DRGFieldState × List Surfaced × Bool :=
  match effectiveRetrieverPath retrieverPath retriever with
  | none =>
      (s, [.structured (JSVal.vstr "Retriever path is not set") 400 (JSVal.vstr "")], false)
  | some _ => ({ s with isLoading := true }, [], true)

end DRGFieldState

section DRGMachine

/-!
Event machine for the render/effect/timer behaviour of `DynamicRadioGroup`
(MultiPaneTextArea.js lines 277–493), under the standard React model:

* after a render commits, exactly the effects whose dependency array
  changed (element-wise `Object.is`) re-run, in declaration order;
* an effect body reads the props/state values captured by the render it
  belongs to; refs (`formValuesRef`, `prevRelevantValuesRef`, the armed
  `setTimeout` handles) are live mutable cells;
* `setState` calls made inside effects are batched and produce one further
  render, whose changed-dependency effects then run, until no React state
  changes (the machine bounds this cascade with fuel; two iterations
  suffice in every scenario run here).

Key source facts embedded:

* `debouncedFetchOptions` (lines 394–403) is
  `useCallback(() => { let timeout; return () => {...} }, [fetchOptions])()`:
  the memoised factory is *invoked during every render*, so every render
  owns a fresh inner closure whose local `timeout` starts `undefined`
  (`closureSlot := none` at each render).  Consequently its
  `clearTimeout(timeout)` can never see a timer armed during an earlier
  render, and because the dependency-change effect (lines 414–436) lists
  this per-render closure in its dependency array, that effect re-runs
  after every render.
* the "Initial fetch" effect (lines 406–410) has deps
  `[isShown, isEvaluated, fetchOptions]`; in the scenarios run here
  `isShown` and the identity of `fetchOptions` (deps: retriever path,
  params, setError, curUrl, value — all untouched) are constant, so it
  re-runs exactly when `isEvaluated` changed since the previous render,
  and its body fetches when `isShown && !isEvaluated`.
* a fetch issue records the time and the query built from
  `formValuesRef.current` (lines 343, 347–361).

The machine tracks the state relevant to fetch/timer behaviour; `options`,
`value` and `isValueInvalid` are covered by the pure transitions above.
-/

structure DRGConfig where
  retrieverParams : List (String × JSVal)
  /-- True when `props.retrieverParams` is present (a JS object, hence truthy). -/
  paramsDefined : Bool
  isShown : Bool
  /-- a retriever path is configured (`retrieverPath || retriever` truthy). -/
  hasPath : Bool

/-- Model of `relevantFieldNames` (lines 313–318): the `$`-prefixed string values of
`retrieverParams`, with the `$` stripped. -/
def relevantFieldNames (cfg : DRGConfig) : List String :=
  cfg.retrieverParams.filterMap fun kv =>
    match kv.2 with
    | .vstr s => if jsStartsWithDollar s then some (jsDropFirst s) else none
    | _ => none

structure DRGMachineState where
  /-- the shared FormValues context value. -/
  formValues : FormValues
  /-- Ref cell `formValuesRef.current` (lines 285, 305–307). -/
  fvRef : FormValues
  isEvaluated : Bool
  isLoading : Bool
  /-- the `isEvaluated` dependency value recorded at the previous effect
  pass (what React compares the "Initial fetch" effect's deps against). -/
  lastRenderEval : Bool
  /-- Ref cell `prevRelevantValuesRef.current` (line 413). -/
  prevRelevant : List (String × JSVal)
  /-- armed debounce timers: (timer id, absolute fire time). -/
  pendingTimers : List (Nat × Nat)
  nextTimerId : Nat
  /-- the current render's debounce closure's local `timeout` variable. -/
  closureSlot : Option Nat
  /-- issued fetches: (issue time, query params built from `formValuesRef`). -/
  fetchLog : List (Nat × List (String × String))

/-- Model of `fetchOptions()` up to the point the request goes out (lines 324–368):
no configured path surfaces an error and issues nothing; otherwise
`setIsLoading(true)`, the query is built from `formValuesRef.current`, and
the request is issued (logged with its time). -/
def fetchIssue (t : Nat) (cfg : DRGConfig) (s : DRGMachineState) : DRGMachineState :=
  if !cfg.hasPath then s
  else
    { s with
      isLoading := true
      fetchLog := s.fetchLog ++ [(t, buildQueryParams cfg.retrieverParams s.fvRef)] }

/-- One invocation of the current render's debounced closure (lines
396–402): clear the timer recorded in this closure's own `timeout`
variable, if any, then arm a new 300 ms timer and record it there. -/
def debouncedCall (t : Nat) (s : DRGMachineState) : DRGMachineState :=
  let s :=
    match s.closureSlot with
    | some tid => { s with pendingTimers := s.pendingTimers.filter fun p => p.1 ≠ tid }
    | none => s
  { s with
    pendingTimers := s.pendingTimers ++ [(s.nextTimerId, t + 300)]
    closureSlot := some s.nextTimerId
    nextTimerId := s.nextTimerId + 1 }

/-- The effects that run after one render commit, in source order:
the `formValuesRef` sync (lines 305–307), the "Initial fetch" effect
(lines 406–410), and the dependency-change effect (lines 414–436). -/
def effectsPass (t : Nat) (cfg : DRGConfig) (s : DRGMachineState) : DRGMachineState :=
  let snapEval := s.isEvaluated
  let s1 := { s with fvRef := s.formValues }
  let s2 :=
    if s.lastRenderEval != snapEval && cfg.isShown && !snapEval then fetchIssue t cfg s1
    else s1
  let rel := relevantFieldNames cfg
  let s3 :=
    if !cfg.isShown || !cfg.paramsDefined || rel.isEmpty then s2
    else
      let scan := rel.foldl
        (fun (p : Bool × List (String × JSVal)) f =>
          let cur := getFieldValue s2.formValues f
          if jsStrictEq cur (getFieldValue p.2 f) then p
          else (true, objSet p.2 f cur))
        (false, s2.prevRelevant)
      let s3 := { s2 with prevRelevant := scan.2 }
      if scan.1 && snapEval then
        debouncedCall t { s3 with isEvaluated := false }
      else s3
  { s3 with lastRenderEval := snapEval }

/-- Render/effect cascade after an external event: render (which re-creates
the debounce closure with a fresh `timeout`), run the effects, and repeat
while the effects changed React state.  Fuel-bounded. -/
def commitRenders : Nat → Nat → DRGConfig → DRGMachineState → DRGMachineState
  | 0, _, _, s => s
  | fuel + 1, t, cfg, s =>
      let r := { s with closureSlot := none }
      let s' := effectsPass t cfg r
      if s'.isEvaluated == r.isEvaluated && s'.isLoading == r.isLoading then s'
      else commitRenders fuel t cfg s'

inductive DRGEvent where
  /-- an upstream field commits a new value into the FormValues context. -/
  | depChange (field : String) (val : JSVal)
  /-- an armed debounce timer elapses; its callback runs `fetchOptions()`. -/
  | timerFire (tid : Nat)
  /-- the oldest in-flight fetch settles: on success the handler runs
  `setOptions`, `setIsEvaluated(true)`, `setIsValueInvalid(...)`; the
  `finally` clears `isLoading` (lines 380–390). -/
  | fetchResolve (success : Bool)

def drgStep (cfg : DRGConfig) (s : DRGMachineState) : Nat × DRGEvent → DRGMachineState
  | (t, .depChange f v) =>
      commitRenders 8 t cfg { s with formValues := objSet s.formValues f v }
  | (t, .timerFire tid) =>
      if s.pendingTimers.any (fun p => p.1 = tid) then
        commitRenders 8 t cfg
          (fetchIssue t cfg
            { s with pendingTimers := s.pendingTimers.filter fun p => p.1 ≠ tid })
      else s
  | (t, .fetchResolve success) =>
      let s := if success then { s with isEvaluated := true } else s
      commitRenders 8 t cfg { s with isLoading := false }

def drgRun (cfg : DRGConfig) (s : DRGMachineState) (events : List (Nat × DRGEvent)) :
    DRGMachineState :=
  events.foldl (drgStep cfg) s

/-- A shown group with one `$`-dependency and a configured path. -/
def drgCfg1 : DRGConfig :=
  { retrieverParams := [("env", JSVal.vstr "$environment")]
    paramsDefined := true
    isShown := true
    hasPath := true }

/-- Steady state after a completed initial evaluation: evaluated, idle,
dependency tracking in sync with the store. -/
def drgInit1 : DRGMachineState :=
  { formValues := [("environment", JSVal.vstr "cpu")]
    fvRef := [("environment", JSVal.vstr "cpu")]
    isEvaluated := true
    isLoading := false
    lastRenderEval := true
    prevRelevant := [("environment", JSVal.vstr "cpu")]
    pendingTimers := []
    nextTimerId := 0
    closureSlot := none
    fetchLog := [] }

/-- A burst consisting of one dependency change at t = 0; the armed timer
fires at t = 300; the fetches stay in flight. -/
def drgTraceSingleChange : List (Nat × DRGEvent) :=
  [(0, .depChange "environment" (JSVal.vstr "gpu")), (300, .timerFire 0)]

/-- Two changes 100 ms apart, the immediate fetch of the first resolving in
between — observed mid-burst at t = 100. -/
def drgTraceTwoChanges : List (Nat × DRGEvent) :=
  [(0, .depChange "environment" (JSVal.vstr "gpu")),
   (50, .fetchResolve true),
   (100, .depChange "environment" (JSVal.vstr "tpu"))]

end DRGMachine

section JobComposer

/-- One `FormData` entry value: a string or a `File`. -/
inductive FormVal where
  | text (s : String)
  | file (fname : String)
deriving DecidableEq, Repr

/-- A multipart `FormData` body: (key, entry) pairs in append order. -/
abbrev FormBody := List (String × FormVal)

/-- Model of `formData.get(k)`: the first entry appended under `k`, or `null`. -/
def fdGet (fd : FormBody) (k : String) : Option FormVal :=
  (fd.find? fun e => e.1 = k).map fun e => e.2

/-- The `paneRefs.forEach` loop of the rerun branch (part_000 lines
49–60): writes the two distinguished panes straight onto `data` (the
aliased `props.rerunInfo`) and collects every other pane into the
`additionalFiles` object. -/
def rerunPaneWrites (paneRefs : List PaneRef)
    (data additionalFiles : List (String × JSVal)) :
    List (String × JSVal) × List (String × JSVal) :=
  match paneRefs with
  | [] => (data, additionalFiles)
  | r :: rest =>
      if r.name = "driver" ∨ r.name = "run_command" then
        rerunPaneWrites rest (objSet data r.name (JSVal.vstr r.value)) additionalFiles
      else
        rerunPaneWrites rest data (objSet additionalFiles r.name (JSVal.vstr r.value))

/-- Model of `JSON.stringify` where the argument is known serialisable (never
`undefined`), as in `JSON.stringify(additionalFiles)`. -/
def jsonStringifyD (v : JSVal) : String :=
  (jsonStringify v).getD "undefined"

/-- The multipart body assembled from an object's entries (part_000 lines
68–79): a `File` value is appended as a file; an array value appends one
`key[]` entry per item (`FormData.append` stringifies non-`File` items);
`null`/`undefined` are skipped; anything else appends `String(value)`. -/
def formBodyOfData : List (String × JSVal) → FormBody
  | [] => []
  | (k, v) :: rest =>
      (match v with
       | .vfile fname => [(k, FormVal.file fname)]
       | .varr items =>
           items.map fun it =>
             (k ++ "[]",
              match it with
              | .vfile fname => FormVal.file fname
              | w => FormVal.text (jsToString w))
       | .vnull => []
       | .vundef => []
       | w => [(k, FormVal.text (jsToString w))]) ++ formBodyOfData rest

/-- The rerun branch of `getFormData` (part_000 lines 45–81).
`const data = props.rerunInfo` *aliases* the supplied prior-job record —
no copy is taken — so every write `data[...] = ...` lands on the caller's
object.  The second component of the result is therefore the value of
`props.rerunInfo` after the call. -/
def getFormDataRerun (rerunInfo : List (String × JSVal)) (paneRefs : List PaneRef)
    (globalFiles : Option (List JSVal)) : FormBody × List (String × JSVal) :=
  let pw := rerunPaneWrites paneRefs rerunInfo []
  let data := objSet pw.1 "additional_files" (JSVal.vstr (jsonStringifyD (JSVal.vobj pw.2)))
  let data :=
    match globalFiles with
    | some fs => objSet data "files" (JSVal.varr fs)
    | none => data
  (formBodyOfData data, data)

/-- Model of `isJobRunning` (part_000 line 38): the socket status string is
`'submitting'` or `'running'`. -/
def isJobRunning (status : String) : Bool :=
  status = "submitting" || status = "running"

/-- Result of one submission attempt. `submitJob` is invoked exactly on the
`submitted` outcome; each `blocked*` outcome is a blocking `alert` with no
network call and no other state change. -/
inductive SubmitResult where
  | blockedRunning
  | blockedNoFormData
  | blockedEmptyName
  | submitted (action : String) (fd : FormBody)
deriving DecidableEq, Repr

/-- Model of `handleSubmit` (part_000 lines 125–148): an in-flight job blocks first;
then a failed form-data assembly (`null`); then an empty job name
(`formData.get("name") === ""` — strict equality with the string, so only
a present, empty text entry matches); otherwise the job is submitted. -/
def handleSubmit (status : String) (formData : Option FormBody) (action : String) :
    SubmitResult :=
  if isJobRunning status then .blockedRunning
  else
    match formData with
    | none => .blockedNoFormData
    | some fd =>
        if fdGet fd "name" = some (FormVal.text "") then .blockedEmptyName
        else .submitted action fd

end JobComposer

section ExampleInputs

/-- A pane list exercising every ordering rule: explicit orders, an
excluded `order = -1` pane, and two `order = 0` panes. -/
def panesExample : List Pane :=
  [⟨"driver", "driver.sh", 1, some "a"⟩,
   ⟨"hidden", "hidden.txt", -1, some "b"⟩,
   ⟨"z1", "z1.txt", 0, some "c"⟩,
   ⟨"z2", "z2.txt", 0, none⟩,
   ⟨"extra", "extra.txt", 2, some "d"⟩]

/-- A field state holding a previously fetched option set and a selection. -/
def drgErrStateExample : DRGFieldState :=
  { options := [⟨"a", "A", false⟩]
    value := "a"
    isLoading := true
    isEvaluated := true
    isValueInvalid := false }

/-- The kind of error object `fetch` rejects with on a network failure. -/
def networkErrExample : JSVal :=
  JSVal.vobj [("name", JSVal.vstr "TypeError"), ("message", JSVal.vstr "Failed to fetch")]

end ExampleInputs

section SortingLemmas

theorem mem_insertPane {p q : Pane} {l : List Pane} :
    q ∈ insertPane p l ↔ q = p ∨ q ∈ l := by
  induction l with
  | nil => simp [insertPane]
  | cons x xs ih =>
      by_cases h : p.order ≤ x.order
      · simp [insertPane, h]
      · simp only [insertPane, if_neg h, List.mem_cons, ih]
        tauto

theorem insertPane_sorted {p : Pane} {l : List Pane}
    (hl : l.Pairwise fun a b => a.order ≤ b.order) :
    (insertPane p l).Pairwise fun a b => a.order ≤ b.order := by
  induction l with
  | nil => simp [insertPane]
  | cons x xs ih =>
      rcases List.pairwise_cons.1 hl with ⟨hx, hxs⟩
      by_cases h : p.order ≤ x.order
      · simp only [insertPane, if_pos h]
        refine List.pairwise_cons.2 ⟨?_, hl⟩
        intro y hy
        rcases List.mem_cons.1 hy with rfl | hy'
        · exact h
        · exact h.trans (hx y hy')
      · simp only [insertPane, if_neg h]
        refine List.pairwise_cons.2 ⟨?_, ih hxs⟩
        intro y hy
        rcases mem_insertPane.1 hy with rfl | hy'
        · exact le_of_not_le h
        · exact hx y hy'

theorem sortPanesByOrder_sorted (l : List Pane) :
    (sortPanesByOrder l).Pairwise fun a b => a.order ≤ b.order := by
  induction l with
  | nil => exact List.Pairwise.nil
  | cons x xs ih => exact insertPane_sorted ih

theorem insertPane_all_le {p : Pane} {l : List Pane}
    (h : ∀ q ∈ l, p.order ≤ q.order) : insertPane p l = p :: l := by
  cases l with
  | nil => rfl
  | cons x xs => simp [insertPane, h x (by simp)]

theorem sortPanesByOrder_eq_self {l : List Pane}
    (hl : l.Pairwise fun a b => a.order ≤ b.order) : sortPanesByOrder l = l := by
  induction l with
  | nil => rfl
  | cons x xs ih =>
      rcases List.pairwise_cons.1 hl with ⟨hx, hxs⟩
      show insertPane x (sortPanesByOrder xs) = x :: xs
      rw [ih hxs]
      exact insertPane_all_le hx

theorem insertPane_cons (p x : Pane) (xs : List Pane) :
    insertPane p (x :: xs)
      = if p.order ≤ x.order then p :: x :: xs else x :: insertPane p xs := rfl

theorem filter_panes_cons (Q : Int → Bool) (x : Pane) (l : List Pane) :
    (x :: l).filter (fun q => Q q.order)
      = if Q x.order = true then x :: l.filter (fun q => Q q.order)
        else l.filter fun q => Q q.order := by
  simp only [List.filter_cons]

theorem insertPane_filter_neg {Q : Int → Bool} {p : Pane} (hp : Q p.order = false)
    (l : List Pane) :
    (insertPane p l).filter (fun q => Q q.order) = l.filter fun q => Q q.order := by
  induction l with
  | nil => simp [insertPane, hp]
  | cons x xs ih =>
      rw [insertPane_cons]
      by_cases h : p.order ≤ x.order
      · rw [if_pos h, filter_panes_cons Q p (x :: xs), if_neg (by simp [hp])]
      · rw [if_neg h, filter_panes_cons Q x (insertPane p xs), filter_panes_cons Q x xs]
        by_cases hqx : Q x.order = true
        · rw [if_pos hqx, if_pos hqx, ih]
        · rw [if_neg hqx, if_neg hqx, ih]

theorem insertPane_filter_pos {Q : Int → Bool} {p : Pane} (hp : Q p.order = true)
    {l : List Pane} (hl : l.Pairwise fun a b => a.order ≤ b.order) :
    (insertPane p l).filter (fun q => Q q.order)
      = insertPane p (l.filter fun q => Q q.order) := by
  induction l with
  | nil => simp [insertPane, hp]
  | cons x xs ih =>
      rcases List.pairwise_cons.1 hl with ⟨hx, hxs⟩
      rw [insertPane_cons]
      by_cases h : p.order ≤ x.order
      · rw [if_pos h, filter_panes_cons Q p (x :: xs), if_pos hp, filter_panes_cons Q x xs]
        by_cases hqx : Q x.order = true
        · rw [if_pos hqx, insertPane_cons, if_pos h]
        · rw [if_neg hqx]
          have hall : ∀ q ∈ xs.filter (fun q => Q q.order), p.order ≤ q.order := by
            intro q hq
            exact h.trans (hx q (List.mem_of_mem_filter hq))
          rw [insertPane_all_le hall]
      · rw [if_neg h, filter_panes_cons Q x (insertPane p xs), filter_panes_cons Q x xs]
        by_cases hqx : Q x.order = true
        · rw [if_pos hqx, if_pos hqx, ih hxs, insertPane_cons, if_neg h]
        · rw [if_neg hqx, if_neg hqx, ih hxs]

theorem sortPanesByOrder_filter (Q : Int → Bool) (l : List Pane) :
    (sortPanesByOrder l).filter (fun q => Q q.order)
      = sortPanesByOrder (l.filter fun q => Q q.order) := by
  induction l with
  | nil => rfl
  | cons x xs ih =>
      show (insertPane x (sortPanesByOrder xs)).filter _ = _
      by_cases hqx : Q x.order = true
      · rw [insertPane_filter_pos hqx (sortPanesByOrder_sorted xs), ih,
            filter_panes_cons Q x xs, if_pos hqx]
        rfl
      · rw [insertPane_filter_neg (by simpa using hqx), ih,
            filter_panes_cons Q x xs, if_neg hqx]

theorem sorted_split (Q : Int → Bool)
    (mono : ∀ i j : Int, i ≤ j → Q i = true → Q j = true)
    {l : List Pane} (hl : l.Pairwise fun a b => a.order ≤ b.order) :
    l = (l.filter fun p => !(Q p.order)) ++ (l.filter fun p => Q p.order) := by
  induction l with
  | nil => rfl
  | cons x xs ih =>
      rcases List.pairwise_cons.1 hl with ⟨hx, hxs⟩
      by_cases hqx : Q x.order = true
      · have h1 : xs.filter (fun p => !(Q p.order)) = [] := by
          rw [List.filter_eq_nil_iff]
          intro q hq
          simp [mono _ _ (hx q hq) hqx]
        have h2 : xs.filter (fun p => Q p.order) = xs := by
          rw [List.filter_eq_self]
          intro q hq
          exact mono _ _ (hx q hq) hqx
        rw [filter_panes_cons (fun i => !(Q i)) x xs, if_neg (by simp [hqx]),
            filter_panes_cons Q x xs, if_pos hqx, h1, h2, List.nil_append]
      · rw [filter_panes_cons (fun i => !(Q i)) x xs, if_pos (by simp [hqx]),
            filter_panes_cons Q x xs, if_neg hqx, List.cons_append]
        exact congrArg (x :: ·) (ih hxs)

theorem normalizeFrom_cons (i : Nat) (p : Pane) (ps : List Pane) :
    normalizeFrom i (p :: ps)
      = (if p.order = 0 then { p with order := 10000 + (i : Int) } else p)
          :: normalizeFrom (i + 1) ps := rfl

theorem pairwise_of_const_order {l : List Pane} {k : Int} (h : ∀ y ∈ l, y.order = k) :
    l.Pairwise fun a b => a.order ≤ b.order := by
  induction l with
  | nil => exact .nil
  | cons x xs ih =>
      refine List.pairwise_cons.2
        ⟨fun y hy => ?_, ih fun y hy => h y (List.mem_cons_of_mem _ hy)⟩
      rw [h x (List.mem_cons_self _ _), h y (List.mem_cons_of_mem _ hy)]

theorem mem_normalizeFrom_big {ps : List Pane}
    (H : ∀ p ∈ ps, p.order ≠ 0 → p.order < 10000) :
    ∀ {i : Nat} {y : Pane},
      y ∈ (normalizeFrom i ps).filter (fun p => decide ((10000 : Int) ≤ p.order)) →
        10000 + (i : Int) ≤ y.order := by
  induction ps with
  | nil =>
      intro i y hy
      simp [normalizeFrom] at hy
  | cons p ps ih =>
      intro i y hy
      have Hps : ∀ q ∈ ps, q.order ≠ 0 → q.order < 10000 :=
        fun q hq => H q (List.mem_cons_of_mem p hq)
      rw [normalizeFrom_cons] at hy
      by_cases hz : p.order = 0
      · rw [if_pos hz,
            filter_panes_cons (fun o => decide ((10000 : Int) ≤ o)) _ _,
            if_pos (by simp)] at hy
        rcases List.mem_cons.1 hy with rfl | hytail
        · simp
        · have := ih Hps hytail
          push_cast at this ⊢
          omega
      · rw [if_neg hz,
            filter_panes_cons (fun o => decide ((10000 : Int) ≤ o)) _ _,
            if_neg (by simp only [decide_eq_true_eq, not_le]; exact H p (by simp) hz)] at hy
        have := ih Hps hy
        push_cast at this ⊢
        omega

theorem normalizeFrom_big_sorted {ps : List Pane}
    (H : ∀ p ∈ ps, p.order ≠ 0 → p.order < 10000) :
    ∀ i : Nat,
      ((normalizeFrom i ps).filter fun p => decide ((10000 : Int) ≤ p.order)).Pairwise
        fun a b => a.order ≤ b.order := by
  induction ps with
  | nil =>
      intro i
      simp [normalizeFrom]
  | cons p ps ih =>
      intro i
      have Hps : ∀ q ∈ ps, q.order ≠ 0 → q.order < 10000 :=
        fun q hq => H q (List.mem_cons_of_mem p hq)
      rw [normalizeFrom_cons]
      by_cases hz : p.order = 0
      · rw [if_pos hz,
            filter_panes_cons (fun o => decide ((10000 : Int) ≤ o)) _ _,
            if_pos (by simp)]
        refine List.pairwise_cons.2 ⟨?_, ih Hps (i + 1)⟩
        intro y hy
        have := mem_normalizeFrom_big Hps hy
        show (10000 : Int) + (i : Int) ≤ y.order
        push_cast at this
        omega
      · rw [if_neg hz,
            filter_panes_cons (fun o => decide ((10000 : Int) ≤ o)) _ _,
            if_neg (by simp only [decide_eq_true_eq, not_le]; exact H p (by simp) hz)]
        exact ih Hps (i + 1)

theorem normalizeFrom_filter_small {ps : List Pane}
    (H : ∀ p ∈ ps, p.order ≠ 0 → p.order < 10000) :
    ∀ i : Nat,
      (normalizeFrom i ps).filter (fun p => !(decide ((10000 : Int) ≤ p.order)))
        = ps.filter fun p => p.order ≠ 0 := by
  induction ps with
  | nil =>
      intro i
      rfl
  | cons p ps ih =>
      intro i
      have Hps : ∀ q ∈ ps, q.order ≠ 0 → q.order < 10000 :=
        fun q hq => H q (List.mem_cons_of_mem p hq)
      rw [normalizeFrom_cons]
      by_cases hz : p.order = 0
      · rw [if_pos hz,
            filter_panes_cons (fun o => !(decide ((10000 : Int) ≤ o))) _ _,
            if_neg (by simp),
            List.filter_cons_of_neg (by simp [hz]), ih Hps (i + 1)]
      · rw [if_neg hz,
            filter_panes_cons (fun o => !(decide ((10000 : Int) ≤ o))) _ _,
            if_pos (by simp only [Bool.not_eq_true', decide_eq_false_iff_not, not_le]; exact H p (by simp) hz),
            List.filter_cons_of_pos (by simp [hz]), ih Hps (i + 1)]

theorem normalizeFrom_filter_big {ps : List Pane}
    (H : ∀ p ∈ ps, p.order ≠ 0 → p.order < 10000) :
    ∀ i : Nat,
      (normalizeFrom i ps).filter (fun p => decide ((10000 : Int) ≤ p.order))
        = ((List.enumFrom i ps).filter fun ip => ip.2.order = 0).map
            fun ip => { ip.2 with order := 10000 + (ip.1 : Int) } := by
  induction ps with
  | nil =>
      intro i
      rfl
  | cons p ps ih =>
      intro i
      have Hps : ∀ q ∈ ps, q.order ≠ 0 → q.order < 10000 :=
        fun q hq => H q (List.mem_cons_of_mem p hq)
      rw [normalizeFrom_cons, List.enumFrom]
      by_cases hz : p.order = 0
      · rw [if_pos hz,
            filter_panes_cons (fun o => decide ((10000 : Int) ≤ o)) _ _,
            if_pos (by simp),
            List.filter_cons_of_pos (by simp [hz]), List.map_cons, ih Hps (i + 1)]
      · rw [if_neg hz,
            filter_panes_cons (fun o => decide ((10000 : Int) ≤ o)) _ _,
            if_neg (by simp only [decide_eq_true_eq, not_le]; exact H p (by simp) hz),
            List.filter_cons_of_neg (by simp [hz]), ih Hps (i + 1)]

end SortingLemmas

section AssocLemmas

theorem lookup_objSet_self (l : List (String × JSVal)) (k : String) (v : JSVal) :
    (objSet l k v).lookup k = some v := by
  induction l with
  | nil => simp [objSet, List.lookup]
  | cons e es ih =>
      obtain ⟨k', v'⟩ := e
      by_cases h : k' = k
      · simp [objSet, h, List.lookup]
      · have hb : (k == k') = false := beq_eq_false_iff_ne.mpr fun hh => h hh.symm
        simp [objSet, h, List.lookup, hb, ih]

theorem lookup_objSet_ne (l : List (String × JSVal)) (k k' : String) (v : JSVal)
    (h : k' ≠ k) : (objSet l k v).lookup k' = l.lookup k' := by
  have hb : (k' == k) = false := beq_eq_false_iff_ne.mpr h
  induction l with
  | nil => simp [objSet, List.lookup, hb]
  | cons e es ih =>
      obtain ⟨k0, v0⟩ := e
      by_cases h0 : k0 = k
      · subst h0
        simp [objSet, List.lookup, hb]
      · simp [objSet, h0, List.lookup, ih]

theorem objSet_fresh (l : List (String × JSVal)) (k : String) (v : JSVal)
    (h : l.lookup k = none) : objSet l k v = l ++ [(k, v)] := by
  induction l with
  | nil => rfl
  | cons e es ih =>
      obtain ⟨k', v'⟩ := e
      by_cases hk : k = k'
      · simp [List.lookup, hk] at h
      · have hb : (k == k') = false := beq_eq_false_iff_ne.mpr hk
        have hk' : ¬(k' = k) := fun hh => hk hh.symm
        simp only [List.lookup, hb] at h
        simp [objSet, hk', List.cons_append, ih h]

theorem lookup_append_of_none {l1 : List (String × JSVal)} {k : String}
    (h : l1.lookup k = none) (l2 : List (String × JSVal)) :
    (l1 ++ l2).lookup k = l2.lookup k := by
  induction l1 with
  | nil => rfl
  | cons e es ih =>
      obtain ⟨k', v'⟩ := e
      by_cases hk : k = k'
      · simp [List.lookup, hk] at h
      · have hb : (k == k') = false := beq_eq_false_iff_ne.mpr hk
        simp only [List.lookup, hb] at h
        simp [List.cons_append, List.lookup, hb, ih h]

end AssocLemmas

section FormBodyLemmas

theorem fdGet_cons (e : String × FormVal) (rest : FormBody) (k : String) :
    fdGet (e :: rest) k = if e.1 = k then some e.2 else fdGet rest k := by
  by_cases h : e.1 = k
  · simp [fdGet, List.find?, h]
  · simp [fdGet, List.find?, h]

theorem fdGet_append_of_none {l1 l2 : FormBody} {k : String}
    (h : ∀ e ∈ l1, ¬(e.1 = k)) : fdGet (l1 ++ l2) k = fdGet l2 k := by
  induction l1 with
  | nil => rfl
  | cons e es ih =>
      rw [List.cons_append, fdGet_cons, if_neg (h e (by simp))]
      exact ih fun x hx => h x (by simp [hx])

theorem formBodyOfData_cons (k : String) (v : JSVal) (rest : List (String × JSVal)) :
    formBodyOfData ((k, v) :: rest)
      = (match v with
         | .vfile fname => [(k, FormVal.file fname)]
         | .varr items =>
             items.map fun it =>
               (k ++ "[]",
                match it with
                | .vfile fname => FormVal.file fname
                | w => FormVal.text (jsToString w))
         | .vnull => []
         | .vundef => []
         | w => [(k, FormVal.text (jsToString w))]) ++ formBodyOfData rest := rfl

/-- A key produced by the `key[]` convention ends in `]`; none of the fixed
field names used by the composer does. -/
theorem append_brackets_ne {s k : String} (hk : k.data.getLast? ≠ some ']') :
    ¬(s ++ "[]" = k) := by
  intro h
  apply hk
  rw [← h]
  have hdata : (s ++ "[]").data = (s.data ++ ['[']) ++ [']'] := by
    cases s
    simp [String.data]
  rw [hdata]
  rw [List.getLast?_append_of_ne_nil (s.data ++ ['[']) (by simp : ([']'] : List Char) ≠ [])]
  rfl

theorem fdGet_formBody_text {data : List (String × JSVal)} {k : String} {c : String}
    (hbr : ∀ e ∈ data, ¬(e.1 ++ "[]" = k))
    (hlk : data.lookup k = some (JSVal.vstr c)) :
    fdGet (formBodyOfData data) k = some (FormVal.text c) := by
  induction data with
  | nil => simp [List.lookup] at hlk
  | cons e es ih =>
      obtain ⟨k', v⟩ := e
      by_cases hk : k = k'
      · subst hk
        simp only [List.lookup, beq_self_eq_true] at hlk
        have hv : v = JSVal.vstr c := Option.some.inj hlk
        subst hv
        rw [formBodyOfData_cons]
        show fdGet ([(k, FormVal.text (jsToString (JSVal.vstr c)))] ++ formBodyOfData es) k
          = some (FormVal.text c)
        rw [List.singleton_append, fdGet_cons, if_pos rfl,
            show jsToString (JSVal.vstr c) = c from by simp [jsToString]]
      · have hb : (k == k') = false := beq_eq_false_iff_ne.mpr hk
        simp only [List.lookup, hb] at hlk
        have hbr' : ∀ e ∈ es, ¬(e.1 ++ "[]" = k) := fun e he => hbr e (by simp [he])
        have hkne : ¬(k' = k) := fun hh => hk hh.symm
        have hbrk : ¬(k' ++ "[]" = k) := hbr (k', v) (by simp)
        rw [formBodyOfData_cons]
        refine Eq.trans (fdGet_append_of_none ?_) (ih hbr' hlk)
        intro e he
        cases v with
        | vstr s =>
            have : e = (k', FormVal.text (jsToString (JSVal.vstr s))) := by simpa using he
            rw [this]
            exact hkne
        | vnum n =>
            have : e = (k', FormVal.text (jsToString (JSVal.vnum n))) := by simpa using he
            rw [this]
            exact hkne
        | vbool b =>
            have : e = (k', FormVal.text (jsToString (JSVal.vbool b))) := by simpa using he
            rw [this]
            exact hkne
        | vnull => simp at he
        | vundef => simp at he
        | varr items =>
            obtain ⟨it, _, rfl⟩ := List.mem_map.1 he
            exact hbrk
        | vobj fields =>
            have : e = (k', FormVal.text (jsToString (JSVal.vobj fields))) := by simpa using he
            rw [this]
            exact hkne
        | vfile fname =>
            have : e = (k', FormVal.file fname) := by simpa using he
            rw [this]
            exact hkne

end FormBodyLemmas

section RerunLemmas

theorem rerunPaneWrites_cons (r : PaneRef) (rest : List PaneRef)
    (data af : List (String × JSVal)) :
    rerunPaneWrites (r :: rest) data af
      = if r.name = "driver" ∨ r.name = "run_command"
        then rerunPaneWrites rest (objSet data r.name (JSVal.vstr r.value)) af
        else rerunPaneWrites rest data (objSet af r.name (JSVal.vstr r.value)) := rfl

theorem rerunPaneWrites_fst_preserve {prs : List PaneRef} {k : String}
    (h : ∀ r ∈ prs, r.name ≠ k) :
    ∀ data af : List (String × JSVal),
      ((rerunPaneWrites prs data af).1).lookup k = data.lookup k := by
  induction prs with
  | nil => intro data af; rfl
  | cons r rest ih =>
      intro data af
      have htail : ∀ q ∈ rest, q.name ≠ k := fun q hq => h q (List.mem_cons_of_mem _ hq)
      rw [rerunPaneWrites_cons]
      by_cases hd : r.name = "driver" ∨ r.name = "run_command"
      · rw [if_pos hd, ih htail]
        exact lookup_objSet_ne _ _ _ _ fun hh => h r (by simp) hh.symm
      · rw [if_neg hd, ih htail]

theorem rerunPaneWrites_fst_lookup {prs : List PaneRef}
    (hnodup : (prs.map PaneRef.name).Nodup) {r : PaneRef} (hr : r ∈ prs)
    (hd : r.name = "driver" ∨ r.name = "run_command") :
    ∀ data af : List (String × JSVal),
      ((rerunPaneWrites prs data af).1).lookup r.name = some (JSVal.vstr r.value) := by
  induction prs with
  | nil => cases hr
  | cons x rest ih =>
      intro data af
      have hnodup' : (rest.map PaneRef.name).Nodup := (List.nodup_cons.1 hnodup).2
      rcases List.mem_cons.1 hr with rfl | hrtail
      · rw [rerunPaneWrites_cons, if_pos hd]
        have hne : ∀ q ∈ rest, q.name ≠ r.name := by
          intro q hq hqe
          exact (List.nodup_cons.1 hnodup).1 (hqe ▸ List.mem_map_of_mem PaneRef.name hq)
        rw [rerunPaneWrites_fst_preserve hne, lookup_objSet_self]
      · rw [rerunPaneWrites_cons]
        by_cases hx : x.name = "driver" ∨ x.name = "run_command"
        · rw [if_pos hx]
          exact ih hnodup' hrtail _ _
        · rw [if_neg hx]
          exact ih hnodup' hrtail _ _

theorem rerunPaneWrites_snd {prs : List PaneRef}
    (hnodup : (prs.map PaneRef.name).Nodup) :
    ∀ data af : List (String × JSVal),
      (∀ r ∈ prs, ¬(r.name = "driver" ∨ r.name = "run_command") →
        af.lookup r.name = none) →
      (rerunPaneWrites prs data af).2
        = af ++ (prs.filter fun r => ¬(r.name = "driver" ∨ r.name = "run_command")).map
            fun r => (r.name, JSVal.vstr r.value) := by
  induction prs with
  | nil =>
      intro data af _
      simp [rerunPaneWrites]
  | cons x rest ih =>
      intro data af hfresh
      have hnodup' : (rest.map PaneRef.name).Nodup := (List.nodup_cons.1 hnodup).2
      rw [rerunPaneWrites_cons]
      by_cases hx : x.name = "driver" ∨ x.name = "run_command"
      · rw [if_pos hx,
            ih hnodup' _ af (fun r hr hnd => hfresh r (List.mem_cons_of_mem _ hr) hnd),
            List.filter_cons_of_neg (by simp [hx])]
      · rw [if_neg hx]
        have haf : af.lookup x.name = none := hfresh x (by simp) hx
        have hfresh' : ∀ r ∈ rest, ¬(r.name = "driver" ∨ r.name = "run_command") →
            (objSet af x.name (JSVal.vstr x.value)).lookup r.name = none := by
          intro r hr hnd
          have hrx : r.name ≠ x.name := by
            intro hqe
            exact (List.nodup_cons.1 hnodup).1 (hqe ▸ List.mem_map_of_mem PaneRef.name hr)
          rw [lookup_objSet_ne _ _ _ _ hrx]
          exact hfresh r (List.mem_cons_of_mem _ hr) hnd
        rw [ih hnodup' data _ hfresh', objSet_fresh _ _ _ haf,
            List.filter_cons_of_pos (by simp [hx]), List.map_cons, List.append_assoc,
            List.singleton_append]

end RerunLemmas

section QueryLemmas

theorem buildQueryParams_cons (k : String) (raw : JSVal)
    (rest : List (String × JSVal)) (fv : FormValues) :
    buildQueryParams ((k, raw) :: rest) fv
      = (match serializeParamValue (resolveParam fv raw) with
         | some s => [(k, s)]
         | none => []) ++ buildQueryParams rest fv := rfl

theorem mem_buildQueryParams {params : List (String × JSVal)} {fv : FormValues}
    {k : String} {raw : JSVal} (hmem : (k, raw) ∈ params) {s : String}
    (hser : serializeParamValue (resolveParam fv raw) = some s) :
    (k, s) ∈ buildQueryParams params fv := by
  induction params with
  | nil => cases hmem
  | cons e rest ih =>
      rcases List.mem_cons.1 hmem with rfl | ht
      · rw [buildQueryParams_cons, hser]
        simp
      · obtain ⟨k', raw'⟩ := e
        rw [buildQueryParams_cons]
        exact List.mem_append.2 (Or.inr (ih ht))

theorem string_dollar_data (f : String) : ("$" ++ f).data = '$' :: f.data := by
  cases f
  rfl

theorem resolveParam_dollar (fv : FormValues) (f : String) :
    resolveParam fv (JSVal.vstr ("$" ++ f)) = getFieldValue fv f := by
  have h1 : jsStartsWithDollar ("$" ++ f) = true := by
    unfold jsStartsWithDollar
    rw [string_dollar_data]
    rfl
  have h2 : jsDropFirst ("$" ++ f) = f := by
    unfold jsDropFirst
    rw [string_dollar_data]
    rfl
  simp [resolveParam, h1, h2]

end QueryLemmas

/-- C3: `MultiPaneTextArea` sorts panes by `order` ascending with a stable
sort for equal effective order; each pane with `order = 0` is normalised to
the synthetic index `10000 + index` and (whenever the explicit orders stay
below `10000`, as the hypothesis records) such panes come last, in their
original relative array order; panes with `order = -1` are excluded from
the rendered pane set, and the submission snapshot `getPaneRefs` is exactly
the rendered set's image. -/
theorem getSortedPanes_spec (ps : List Pane)
    (H : ∀ p ∈ ps, p.order ≠ 0 → p.order < 10000) :
    (∀ p ∈ getSortedPanes (some ps), p.order ≠ -1)
    ∧ (getSortedPanes (some ps)).Pairwise (fun a b => a.order ≤ b.order)
    ∧ (∀ k : Int,
        (sortPanesByOrder (normalizeZeroOrders ps)).filter (fun p => p.order = k)
          = (normalizeZeroOrders ps).filter fun p => p.order = k)
    ∧ getSortedPanes (some ps)
        = ((sortPanesByOrder (ps.filter fun p => p.order ≠ 0)).filter fun p => p.order ≠ -1)
          ++ ((List.enumFrom 0 ps).filter fun ip => ip.2.order = 0).map
              (fun ip => { ip.2 with order := 10000 + (ip.1 : Int) })
    ∧ getPaneRefs (some ps) = (getSortedPanes (some ps)).map paneToRef := by
  refine ⟨?_, ?_, ?_, ?_, rfl⟩
  · intro p hp
    simp only [getSortedPanes] at hp
    exact of_decide_eq_true (List.mem_filter.1 hp).2
  · simp only [getSortedPanes]
    exact (sortPanesByOrder_sorted _).filter _
  · intro k
    rw [sortPanesByOrder_filter (fun o => decide (o = k)) (normalizeZeroOrders ps)]
    apply sortPanesByOrder_eq_self
    apply pairwise_of_const_order
    intro y hy
    exact of_decide_eq_true (List.mem_filter.1 hy).2
  · have hmono : ∀ i j : Int, i ≤ j →
        decide ((10000 : Int) ≤ i) = true → decide ((10000 : Int) ≤ j) = true := by
      intro i j hij hi
      rw [decide_eq_true_eq] at hi ⊢
      omega
    simp only [getSortedPanes, normalizeZeroOrders]
    have hs := sortPanesByOrder_sorted (normalizeFrom 0 ps)
    have hsplit := sorted_split (fun o => decide ((10000 : Int) ≤ o)) hmono hs
    rw [hsplit, List.filter_append]
    congr 1
    · rw [sortPanesByOrder_filter (fun o => !(decide ((10000 : Int) ≤ o))) (normalizeFrom 0 ps),
          normalizeFrom_filter_small H 0]
    · rw [sortPanesByOrder_filter (fun o => decide ((10000 : Int) ≤ o)) (normalizeFrom 0 ps),
          sortPanesByOrder_eq_self (normalizeFrom_big_sorted H 0)]
      have hall : ∀ y ∈ (normalizeFrom 0 ps).filter
          (fun p => decide ((10000 : Int) ≤ p.order)), decide (y.order ≠ -1) = true := by
        intro y hy
        rw [decide_eq_true_eq]
        have := mem_normalizeFrom_big H hy
        omega
      rw [List.filter_eq_self.2 hall, normalizeFrom_filter_big H 0]

/-- Witness for C3 at `panesExample` (orders 1, −1, 0, 0, 2). -/
theorem getSortedPanes_spec_witness :
    (∀ p ∈ panesExample, p.order ≠ 0 → p.order < 10000)
    ∧ ((∀ p ∈ getSortedPanes (some panesExample), p.order ≠ -1)
       ∧ (getSortedPanes (some panesExample)).Pairwise (fun a b => a.order ≤ b.order)
       ∧ (∀ k : Int,
           (sortPanesByOrder (normalizeZeroOrders panesExample)).filter (fun p => p.order = k)
             = (normalizeZeroOrders panesExample).filter fun p => p.order = k)
       ∧ getSortedPanes (some panesExample)
           = ((sortPanesByOrder (panesExample.filter fun p => p.order ≠ 0)).filter
                fun p => p.order ≠ -1)
             ++ ((List.enumFrom 0 panesExample).filter fun ip => ip.2.order = 0).map
                 (fun ip => { ip.2 with order := 10000 + (ip.1 : Int) })
       ∧ getPaneRefs (some panesExample)
           = (getSortedPanes (some panesExample)).map paneToRef) :=
  ⟨by decide, getSortedPanes_spec panesExample (by decide)⟩

/-- C1 (code behaviour at the claim's failing input): in a shown, evaluated
`DynamicRadioGroup`, a burst consisting of a single dependency-field change
at t = 0 issues *two* fetches — one immediately at t = 0 (the "Initial
fetch" effect re-runs because the dependency effect resets `isEvaluated`)
and one at t = 300 from the armed timer — the first firing before any
300 ms quiet window has elapsed; and in a two-change burst whose first
immediate fetch resolves in between, two debounce timers (firing at 300 and
400) are pending simultaneously, because each render's fresh debounce
closure starts with an `undefined` `timeout` and can never cancel a timer
armed by an earlier render.  This contradicts the claimed
"exactly one fetch, only after the quiet window, at most one pending
timer" behaviour. -/
theorem drg_debounce_burst_code_behaviour :
    ((drgRun drgCfg1 drgInit1 drgTraceSingleChange).fetchLog.map Prod.fst = [0, 300])
    ∧ ((drgRun drgCfg1 drgInit1 drgTraceTwoChanges).pendingTimers.map Prod.snd = [300, 400])
    ∧ ((drgRun drgCfg1 drgInit1 drgTraceTwoChanges).fetchLog.map Prod.fst = [0, 100]) := by
  decide

/-- C2: after a successful option fetch, the held selection value is left
untouched, and whenever it is non-empty and absent from the returned option
set the invalid-selection flag is set; the option set is replaced by the
returned data. -/
theorem drg_fetch_success_flags_invalid_selection (s : DRGFieldState) (data : List Opt)
    (hval : s.value ≠ "") (habs : ∀ o ∈ data, o.value ≠ s.value) :
    (applyFetchSuccess s data).value = s.value
    ∧ (applyFetchSuccess s data).isValueInvalid = true
    ∧ (applyFetchSuccess s data).options = data := by
  refine ⟨rfl, ?_, rfl⟩
  show (!(decide (s.value = ""))
      && !(data.any fun o => decide (o.value = s.value))) = true
  rw [Bool.and_eq_true, Bool.not_eq_true', Bool.not_eq_true']
  constructor
  · exact decide_eq_false hval
  · rw [List.any_eq_false]
    intro o ho
    exact fun hcontr => habs o ho (of_decide_eq_true hcontr)

/-- Witness for C2: value `"a"` absent from the refetched set `[{b}]`. -/
theorem drg_fetch_success_flags_invalid_selection_witness :
    (("a" : String) ≠ ""
      ∧ ∀ o ∈ [Opt.mk "b" "B" false], o.value ≠ "a")
    ∧ ((applyFetchSuccess drgErrStateExample [Opt.mk "b" "B" false]).value
          = drgErrStateExample.value
       ∧ (applyFetchSuccess drgErrStateExample [Opt.mk "b" "B" false]).isValueInvalid = true
       ∧ (applyFetchSuccess drgErrStateExample [Opt.mk "b" "B" false]).options
          = [Opt.mk "b" "B" false]) :=
  ⟨⟨by decide, by decide⟩,
   drg_fetch_success_flags_invalid_selection drgErrStateExample [Opt.mk "b" "B" false]
     (by decide) (by decide)⟩

/-- C4: in rerun mode the assembled payload carries the `driver` and
`run_command` panes as direct top-level fields holding their contents, and
bundles every other pane as a key/value entry of the JSON-encoded object in
the single `additional_files` field; at the claim's example panes the body
is exactly `driver="echo hi"`, `additional_files={"extra.txt":"x"}`. -/
theorem rerun_payload_separates_distinguished_panes
    (ri : List (String × JSVal)) (prs : List PaneRef)
    (hnodup : (prs.map PaneRef.name).Nodup) :
    (∀ r ∈ prs, r.name = "driver" →
        fdGet (getFormDataRerun ri prs none).1 "driver" = some (FormVal.text r.value))
    ∧ (∀ r ∈ prs, r.name = "run_command" →
        fdGet (getFormDataRerun ri prs none).1 "run_command" = some (FormVal.text r.value))
    ∧ fdGet (getFormDataRerun ri prs none).1 "additional_files"
        = some (FormVal.text (jsonStringifyD (JSVal.vobj
            ((prs.filter fun r => ¬(r.name = "driver" ∨ r.name = "run_command")).map
              fun r => (r.name, JSVal.vstr r.value)))))
    ∧ (getFormDataRerun [] [⟨"driver", "echo hi"⟩, ⟨"extra.txt", "x"⟩] none).1
        = [("driver", FormVal.text "echo hi"),
           ("additional_files", FormVal.text "\x7b\"extra.txt\":\"x\"\x7d")] := by
  have hunfold : getFormDataRerun ri prs none
      = (formBodyOfData (objSet (rerunPaneWrites prs ri []).1 "additional_files"
          (JSVal.vstr (jsonStringifyD (JSVal.vobj (rerunPaneWrites prs ri []).2)))),
         objSet (rerunPaneWrites prs ri []).1 "additional_files"
          (JSVal.vstr (jsonStringifyD (JSVal.vobj (rerunPaneWrites prs ri []).2)))) := rfl
  refine ⟨?_, ?_, ?_, by decide⟩
  · intro r hr hdr
    rw [hunfold]
    apply fdGet_formBody_text (fun e _ => append_brackets_ne (by decide))
    rw [lookup_objSet_ne _ _ _ _ (by decide)]
    have := rerunPaneWrites_fst_lookup hnodup hr (Or.inl hdr) ri []
    rw [hdr] at this
    exact this
  · intro r hr hdr
    rw [hunfold]
    apply fdGet_formBody_text (fun e _ => append_brackets_ne (by decide))
    rw [lookup_objSet_ne _ _ _ _ (by decide)]
    have := rerunPaneWrites_fst_lookup hnodup hr (Or.inr hdr) ri []
    rw [hdr] at this
    exact this
  · rw [hunfold]
    apply fdGet_formBody_text (fun e _ => append_brackets_ne (by decide))
    rw [rerunPaneWrites_snd hnodup ri [] (fun r _ _ => rfl), List.nil_append]
    exact lookup_objSet_self _ _ _

/-- Witness for C4 at a prior-job record `{name: "job1"}` and the example
panes `driver`/`extra.txt`. -/
theorem rerun_payload_separates_distinguished_panes_witness :
    (([PaneRef.mk "driver" "echo hi", PaneRef.mk "extra.txt" "x"].map PaneRef.name).Nodup)
    ∧ ((∀ r ∈ [PaneRef.mk "driver" "echo hi", PaneRef.mk "extra.txt" "x"],
          r.name = "driver" →
          fdGet (getFormDataRerun [("name", JSVal.vstr "job1")]
            [PaneRef.mk "driver" "echo hi", PaneRef.mk "extra.txt" "x"] none).1 "driver"
            = some (FormVal.text r.value))
       ∧ (∀ r ∈ [PaneRef.mk "driver" "echo hi", PaneRef.mk "extra.txt" "x"],
          r.name = "run_command" →
          fdGet (getFormDataRerun [("name", JSVal.vstr "job1")]
            [PaneRef.mk "driver" "echo hi", PaneRef.mk "extra.txt" "x"] none).1 "run_command"
            = some (FormVal.text r.value))
       ∧ fdGet (getFormDataRerun [("name", JSVal.vstr "job1")]
            [PaneRef.mk "driver" "echo hi", PaneRef.mk "extra.txt" "x"] none).1
            "additional_files"
          = some (FormVal.text (jsonStringifyD (JSVal.vobj
              (([PaneRef.mk "driver" "echo hi", PaneRef.mk "extra.txt" "x"].filter
                  fun r => ¬(r.name = "driver" ∨ r.name = "run_command")).map
                fun r => (r.name, JSVal.vstr r.value)))))
       ∧ (getFormDataRerun [] [⟨"driver", "echo hi"⟩, ⟨"extra.txt", "x"⟩] none).1
          = [("driver", FormVal.text "echo hi"),
             ("additional_files", FormVal.text "\x7b\"extra.txt\":\"x\"\x7d")]) :=
  ⟨by decide,
   rerun_payload_separates_distinguished_panes [("name", JSVal.vstr "job1")]
     [PaneRef.mk "driver" "echo hi", PaneRef.mk "extra.txt" "x"] (by decide)⟩

/-- C5: a `retrieverParams` value `"$f"` is resolved to field `f`'s current
value in the FormValues the fetch reads (the `formValuesRef` snapshot taken
at fetch time); resolved primitives — string, number, boolean — are
serialised unquoted, objects are JSON-encoded; `{env: "$environment"}` with
`{environment: "gpu"}` yields the query `env=gpu`; and in the machine run,
a fetch issued in the very tick of a dependency change already reads the
*new* value through the ref (no stale closure). -/
theorem drg_query_resolves_dollar_params (params : List (String × JSVal))
    (fv : FormValues) (k f : String)
    (hmem : (k, JSVal.vstr ("$" ++ f)) ∈ params) :
    (∀ s, getFieldValue fv f = JSVal.vstr s → (k, s) ∈ buildQueryParams params fv)
    ∧ (∀ n : Int, getFieldValue fv f = JSVal.vnum n →
        (k, toString n) ∈ buildQueryParams params fv)
    ∧ (∀ b, getFieldValue fv f = JSVal.vbool b →
        (k, cond b "true" "false") ∈ buildQueryParams params fv)
    ∧ (∀ fields j, getFieldValue fv f = JSVal.vobj fields →
        jsonStringify (JSVal.vobj fields) = some j →
        (k, j) ∈ buildQueryParams params fv)
    ∧ queryToString (buildQueryParams [("env", JSVal.vstr "$environment")]
        [("environment", JSVal.vstr "gpu")]) = "env=gpu"
    ∧ (drgRun drgCfg1 drgInit1 drgTraceSingleChange).fetchLog.map Prod.snd
        = [[("env", "gpu")], [("env", "gpu")]] := by
  refine ⟨?_, ?_, ?_, ?_, by decide, by decide⟩
  · intro s hs
    exact mem_buildQueryParams hmem (by rw [resolveParam_dollar, hs]; rfl)
  · intro n hn
    exact mem_buildQueryParams hmem (by rw [resolveParam_dollar, hn]; rfl)
  · intro b hb
    exact mem_buildQueryParams hmem (by rw [resolveParam_dollar, hb]; cases b <;> rfl)
  · intro fields j hob hj
    refine mem_buildQueryParams hmem ?_
    rw [resolveParam_dollar, hob]
    exact hj

/-- Witness for C5: `{env: "$environment"}`, `{environment: "gpu"}`. -/
theorem drg_query_resolves_dollar_params_witness :
    (("env", JSVal.vstr ("$" ++ "environment"))
        ∈ [("env", JSVal.vstr ("$" ++ "environment"))])
    ∧ ((∀ s, getFieldValue [("environment", JSVal.vstr "gpu")] "environment"
            = JSVal.vstr s →
          ("env", s) ∈ buildQueryParams [("env", JSVal.vstr ("$" ++ "environment"))]
            [("environment", JSVal.vstr "gpu")])
       ∧ (∀ n : Int, getFieldValue [("environment", JSVal.vstr "gpu")] "environment"
            = JSVal.vnum n →
          ("env", toString n) ∈ buildQueryParams
            [("env", JSVal.vstr ("$" ++ "environment"))] [("environment", JSVal.vstr "gpu")])
       ∧ (∀ b, getFieldValue [("environment", JSVal.vstr "gpu")] "environment"
            = JSVal.vbool b →
          ("env", cond b "true" "false") ∈ buildQueryParams
            [("env", JSVal.vstr ("$" ++ "environment"))] [("environment", JSVal.vstr "gpu")])
       ∧ (∀ fields j, getFieldValue [("environment", JSVal.vstr "gpu")] "environment"
            = JSVal.vobj fields →
          jsonStringify (JSVal.vobj fields) = some j →
          ("env", j) ∈ buildQueryParams [("env", JSVal.vstr ("$" ++ "environment"))]
            [("environment", JSVal.vstr "gpu")])
       ∧ queryToString (buildQueryParams [("env", JSVal.vstr "$environment")]
           [("environment", JSVal.vstr "gpu")]) = "env=gpu"
       ∧ (drgRun drgCfg1 drgInit1 drgTraceSingleChange).fetchLog.map Prod.snd
           = [[("env", "gpu")], [("env", "gpu")]]) :=
  ⟨List.mem_cons_self _ _,
   drg_query_resolves_dollar_params [("env", JSVal.vstr ("$" ++ "environment"))]
     [("environment", JSVal.vstr "gpu")] "env" "environment" (List.mem_cons_self _ _)⟩

/-- C6 as stated is false on the code: a failing fetch does not always
surface a structured `{message, status_code, details}` object.  On a
network failure the `catch` block passes the raw thrown error object to
`props.setError` unchanged, and even on a non-2xx response, a body parsing
to the JSON literal `null` makes the unguarded `errorData.message` read
throw, so the outer catch passes the raw `TypeError` — at both concrete
failures what reaches the sink is `Surfaced.raw`, not any
`Surfaced.structured`. -/
theorem drg_fetch_error_not_always_structured :
    ((applyFetchOutcome drgErrStateExample
        (FetchOutcome.networkError networkErrExample)).2
      = [Surfaced.raw networkErrExample])
    ∧ ((applyFetchOutcome drgErrStateExample
        (FetchOutcome.httpError 500 (some JSVal.vnull))).2
      = [Surfaced.raw nullBodyTypeError])
    ∧ (¬ ∃ m sc d,
        (applyFetchOutcome drgErrStateExample
          (FetchOutcome.networkError networkErrExample)).2
          = [Surfaced.structured m sc d])
    ∧ (¬ ∃ m sc d,
        (applyFetchOutcome drgErrStateExample
          (FetchOutcome.httpError 500 (some JSVal.vnull))).2
          = [Surfaced.structured m sc d]) := by
  refine ⟨rfl, rfl, ?_, ?_⟩
  · rintro ⟨m, sc, d, h⟩
    rw [show (applyFetchOutcome drgErrStateExample
        (FetchOutcome.networkError networkErrExample)).2
        = [Surfaced.raw networkErrExample] from rfl] at h
    simp at h
  · rintro ⟨m, sc, d, h⟩
    rw [show (applyFetchOutcome drgErrStateExample
        (FetchOutcome.httpError 500 (some JSVal.vnull))).2
        = [Surfaced.raw nullBodyTypeError] from rfl] at h
    simp at h

/-- C6 (amended): every failing fetch clears the loading flag and leaves
the previously held option set and selection value unchanged; a non-2xx
response whose parsed body is not the JSON literal `null` surfaces a
structured `{message, status_code, details}` object carrying the response
status as `status_code`, while a non-2xx response whose body parses to
`null` (the unguarded `errorData.message` read throws a `TypeError` into
the outer catch), a network failure, and a malformed-JSON failure all pass
the raw thrown error to the same sink. -/
theorem drg_fetch_error_surfacing (s : DRGFieldState) (o : FetchOutcome)
    (hf : o.isFailure = true) :
    (applyFetchOutcome s o).1.options = s.options
    ∧ (applyFetchOutcome s o).1.isLoading = false
    ∧ (applyFetchOutcome s o).1.value = s.value
    ∧ (applyFetchOutcome s o).2
        = (match o with
           | .httpError status body => [httpErrorSurfaced status body]
           | .networkError e => [Surfaced.raw e]
           | .parseError e => [Surfaced.raw e]
           | .success _ => [])
    ∧ (∀ (status : Nat) (body : Option JSVal),
        body ≠ some JSVal.vnull → body ≠ some JSVal.vundef →
        ∃ m d, httpErrorSurfaced status body = Surfaced.structured m status d)
    ∧ (∀ status : Nat, httpErrorSurfaced status (some JSVal.vnull)
        = Surfaced.raw nullBodyTypeError) := by
  have hstruct : ∀ (status : Nat) (body : Option JSVal),
      body ≠ some JSVal.vnull → body ≠ some JSVal.vundef →
      ∃ m d, httpErrorSurfaced status body = Surfaced.structured m status d := by
    intro status body h1 h2
    match body with
    | none => exact ⟨_, _, rfl⟩
    | some (JSVal.vstr t) => exact ⟨_, _, rfl⟩
    | some (JSVal.vnum n) => exact ⟨_, _, rfl⟩
    | some (JSVal.vbool b) => exact ⟨_, _, rfl⟩
    | some JSVal.vnull => exact absurd rfl h1
    | some JSVal.vundef => exact absurd rfl h2
    | some (JSVal.varr l) => exact ⟨_, _, rfl⟩
    | some (JSVal.vobj fs) => exact ⟨_, _, rfl⟩
    | some (JSVal.vfile fn) => exact ⟨_, _, rfl⟩
  cases o with
  | httpError st body => exact ⟨rfl, rfl, rfl, rfl, hstruct, fun st' => rfl⟩
  | networkError e => exact ⟨rfl, rfl, rfl, rfl, hstruct, fun st' => rfl⟩
  | parseError e => exact ⟨rfl, rfl, rfl, rfl, hstruct, fun st' => rfl⟩
  | success d => simp [FetchOutcome.isFailure] at hf

/-- Witness for the amended C6 at a 500 response with unparsable body. -/
theorem drg_fetch_error_surfacing_witness :
    ((FetchOutcome.httpError 500 none).isFailure = true)
    ∧ ((applyFetchOutcome drgErrStateExample (FetchOutcome.httpError 500 none)).1.options
          = drgErrStateExample.options
       ∧ (applyFetchOutcome drgErrStateExample
            (FetchOutcome.httpError 500 none)).1.isLoading = false
       ∧ (applyFetchOutcome drgErrStateExample (FetchOutcome.httpError 500 none)).1.value
          = drgErrStateExample.value
       ∧ (applyFetchOutcome drgErrStateExample (FetchOutcome.httpError 500 none)).2
          = [httpErrorSurfaced 500 none]
       ∧ (∀ (status : Nat) (body : Option JSVal),
            body ≠ some JSVal.vnull → body ≠ some JSVal.vundef →
            ∃ m d, httpErrorSurfaced status body = Surfaced.structured m status d)
       ∧ (∀ status : Nat, httpErrorSurfaced status (some JSVal.vnull)
            = Surfaced.raw nullBodyTypeError)) :=
  ⟨rfl, drg_fetch_error_surfacing drgErrStateExample (FetchOutcome.httpError 500 none) rfl⟩

/-- C7: while the job transport reports `submitting` or `running`, every
submission attempt is blocked outright (a blocking alert); `submitJob` is
never reached, whatever the assembled form data. -/
theorem submit_blocked_while_job_running (status : String) (fd : Option FormBody)
    (action : String) (h : status = "submitting" ∨ status = "running") :
    handleSubmit status fd action = SubmitResult.blockedRunning
    ∧ ∀ a f, handleSubmit status fd action ≠ SubmitResult.submitted a f := by
  have hrun : isJobRunning status = true := by
    rcases h with rfl | rfl <;> decide
  constructor
  · simp [handleSubmit, hrun]
  · intro a f
    simp [handleSubmit, hrun]

/-- Witness for C7: status `running`. -/
theorem submit_blocked_while_job_running_witness :
    (("running" : String) = "submitting" ∨ ("running" : String) = "running")
    ∧ (handleSubmit "running" (some [("name", FormVal.text "job1")]) "/submit"
          = SubmitResult.blockedRunning
       ∧ ∀ a f, handleSubmit "running" (some [("name", FormVal.text "job1")]) "/submit"
          ≠ SubmitResult.submitted a f) :=
  ⟨Or.inr rfl,
   submit_blocked_while_job_running "running" (some [("name", FormVal.text "job1")])
     "/submit" (Or.inr rfl)⟩

/-- C8: a submission whose assembled payload carries a `name` entry equal
to the empty string is always blocked with an alert — by the empty-name
guard when no job is in flight, or by the in-flight guard first — and
`submitJob` is never invoked. -/
theorem submit_blocked_on_empty_job_name (status action : String) (fd : FormBody)
    (h : fdGet fd "name" = some (FormVal.text "")) :
    (handleSubmit status (some fd) action = SubmitResult.blockedRunning
      ∨ handleSubmit status (some fd) action = SubmitResult.blockedEmptyName)
    ∧ (∀ a f, handleSubmit status (some fd) action ≠ SubmitResult.submitted a f)
    ∧ (isJobRunning status = false →
        handleSubmit status (some fd) action = SubmitResult.blockedEmptyName) := by
  by_cases hrun : isJobRunning status = true
  · refine ⟨Or.inl ?_, ?_, ?_⟩
    · simp [handleSubmit, hrun]
    · intro a f
      simp [handleSubmit, hrun]
    · intro hcontr
      rw [hrun] at hcontr
      cases hcontr
  · have hrun' : isJobRunning status = false := Bool.eq_false_iff.mpr hrun
    refine ⟨Or.inr ?_, ?_, fun _ => ?_⟩
    · simp [handleSubmit, hrun', h]
    · intro a f
      simp [handleSubmit, hrun', h]
    · simp [handleSubmit, hrun', h]

/-- Witness for C8: an idle transport and a payload with `name=""`. -/
theorem submit_blocked_on_empty_job_name_witness :
    (fdGet [("name", FormVal.text "")] "name" = some (FormVal.text ""))
    ∧ ((handleSubmit "idle" (some [("name", FormVal.text "")]) "/submit"
          = SubmitResult.blockedRunning
        ∨ handleSubmit "idle" (some [("name", FormVal.text "")]) "/submit"
          = SubmitResult.blockedEmptyName)
       ∧ (∀ a f, handleSubmit "idle" (some [("name", FormVal.text "")]) "/submit"
          ≠ SubmitResult.submitted a f)
       ∧ (isJobRunning "idle" = false →
          handleSubmit "idle" (some [("name", FormVal.text "")]) "/submit"
            = SubmitResult.blockedEmptyName)) :=
  ⟨by decide,
   submit_blocked_on_empty_job_name "idle" "/submit" [("name", FormVal.text "")] (by decide)⟩

/-- C9: with no retriever path configured (both `retrieverPath` and
`retriever` absent or empty), `fetchOptions` synchronously surfaces the
structured error `{message: "Retriever path is not set", status_code: 400,
details: ""}`, issues no request, and leaves the field state untouched —
in particular not loading and with its option set unchanged. -/
theorem fetch_without_retriever_path_errors_synchronously
    (rp r : Option String) (s : DRGFieldState)
    (h1 : rp = none ∨ rp = some "") (h2 : r = none ∨ r = some "") :
    fetchOptionsStart rp r s
      = (s, [Surfaced.structured (JSVal.vstr "Retriever path is not set") 400
              (JSVal.vstr "")], false) := by
  have hp : effectiveRetrieverPath rp r = none := by
    rcases h1 with rfl | rfl <;> rcases h2 with rfl | rfl <;> rfl
  simp [fetchOptionsStart, hp]

/-- Witness for C9: neither retriever prop set. -/
theorem fetch_without_retriever_path_errors_synchronously_witness :
    ((none : Option String) = none ∨ (none : Option String) = some "")
    ∧ (fetchOptionsStart none none drgErrStateExample
        = (drgErrStateExample,
           [Surfaced.structured (JSVal.vstr "Retriever path is not set") 400
             (JSVal.vstr "")], false)) :=
  ⟨Or.inl rfl,
   fetch_without_retriever_path_errors_synchronously none none drgErrStateExample
     (Or.inl rfl) (Or.inl rfl)⟩

/-- C10: the rerun branch of `getFormData` aliases the supplied prior-job
record (`const data = props.rerunInfo` takes no copy), so its writes land
on the caller's object: after any call, `props.rerunInfo` carries the
freshly written `additional_files` entry (and the `files` entry whenever
`globalFiles` is supplied); at a concrete input the caller's record
`{name: "job1"}` comes back extended with the `driver` and
`additional_files` entries, i.e. changed. -/
theorem rerun_mutates_rerunInfo_in_place :
    (∀ (ri : List (String × JSVal)) (prs : List PaneRef)
        (gf : Option (List JSVal)),
      ((getFormDataRerun ri prs gf).2).lookup "additional_files"
        = some (JSVal.vstr (jsonStringifyD (JSVal.vobj (rerunPaneWrites prs ri []).2))))
    ∧ (∀ (ri : List (String × JSVal)) (prs : List PaneRef) (fs : List JSVal),
        ((getFormDataRerun ri prs (some fs)).2).lookup "files"
          = some (JSVal.varr fs))
    ∧ (getFormDataRerun [("name", JSVal.vstr "job1")] [⟨"driver", "echo hi"⟩] none).2
        = [("name", JSVal.vstr "job1"), ("driver", JSVal.vstr "echo hi"),
           ("additional_files", JSVal.vstr "\x7b\x7d")]
    ∧ ([("name", JSVal.vstr "job1"), ("driver", JSVal.vstr "echo hi"),
        ("additional_files", JSVal.vstr "\x7b\x7d")] : List (String × JSVal))
        ≠ [("name", JSVal.vstr "job1")] := by
  refine ⟨?_, ?_, ?_, ?_⟩
  · intro ri prs gf
    cases gf with
    | none => exact lookup_objSet_self _ _ _
    | some fs =>
        rw [show (getFormDataRerun ri prs (some fs)).2
            = objSet (objSet (rerunPaneWrites prs ri []).1 "additional_files"
                (JSVal.vstr (jsonStringifyD (JSVal.vobj (rerunPaneWrites prs ri []).2))))
                "files" (JSVal.varr fs) from rfl]
        rw [lookup_objSet_ne _ _ _ _ (by decide)]
        exact lookup_objSet_self _ _ _
  · intro ri prs fs
    exact lookup_objSet_self _ _ _
  · show objSet (objSet [("name", JSVal.vstr "job1")] "driver" (JSVal.vstr "echo hi"))
        "additional_files" (JSVal.vstr (jsonStringifyD (JSVal.vobj []))) = _
    rw [show jsonStringifyD (JSVal.vobj []) = "\x7b\x7d" from by
      simp [jsonStringifyD, jsonStringify]
      rfl]
    rfl
  · intro hcontr
    simp at hcontr

/-- C3 as universally stated is false: the synthetic index for `order = 0`
panes is `10000 + index`, so a pane with an explicit order of `20000` sorts
*after* every normalised zero-order pane.  At the concrete input
`[{order: 20000}, {order: 0}]` the zero-order pane comes out first, not
last — the last rendered pane is the explicit-order pane. -/
theorem getSortedPanes_zero_not_always_last :
    getSortedPanes (some [⟨"big", "big.txt", 20000, none⟩, ⟨"zero", "zero.txt", 0, none⟩])
      = [⟨"zero", "zero.txt", 10001, none⟩, ⟨"big", "big.txt", 20000, none⟩]
    ∧ (getSortedPanes
        (some [⟨"big", "big.txt", 20000, none⟩, ⟨"zero", "zero.txt", 0, none⟩])).getLast?
      = some ⟨"big", "big.txt", 20000, none⟩ := by
  decide
